import Mathlib

/-!
Verification of the Moms_insta Tauri backend (Rust sources under
`src-tauri/src`).  The Rust code is shallowly embedded: pure helper
functions become Lean functions on `String`/`List Char`, the project
store becomes explicit state passing over an association-list file
system, and network calls (LLM providers, image renderers) are
parameters of the embedded functions.  A Rust function that can panic
is modelled with an `Option` result, `none` standing for the panic.
-/

namespace MomsInsta

/-! ## Structured-response extraction (commands/content.rs, commands/research.rs) -/

/-- Model of Rust `str::find(char)`: index of the first occurrence of `c`
in the character list, if any.  Indices are counted in characters; for the
texts relevant here every searched delimiter is a one-byte character, and
character order agrees with Rust byte order. -/
def firstIdxOf (l : List Char) (c : Char) : Option Nat :=
  match l with
  | [] => none
  | x :: xs => if x = c then some 0 else (firstIdxOf xs c).map (· + 1)

/-- Model of Rust `str::rfind(char)`: index of the last occurrence of `c`. -/
def lastIdxOf (l : List Char) (c : Char) : Option Nat :=
  match l with
  | [] => none
  | x :: xs =>
    match lastIdxOf xs c with
    | some k => some (k + 1)
    | none => if x = c then some 0 else none

/-- The inclusive slice `text[start..=stop]` as a character list. -/
def sliceInclusive (text : List Char) (start stop : Nat) : List Char :=
  (text.drop start).take (stop + 1 - start)

/-- Embedding of `extract_json_array` (commands/content.rs, lines 159-167).
Rust slices `text[start..=stop]`, which panics whenever `start > stop + 1`;
the panic is modelled as `none`.  (With `start = stop + 1` the Rust slice is
the empty string.) -/
def extract_json_array (text : String) : Option String :=
  match firstIdxOf text.data '[' with
  | some start =>
    match lastIdxOf text.data ']' with
    | some stop =>
      if start ≤ stop + 1 then some ⟨sliceInclusive text.data start stop⟩ else none
    | none => some "[]"
  | none => some "[]"

/-- Embedding of `extract_json` (commands/research.rs, lines 159-167): same
shape as `extract_json_array` but with curly braces, and falling back to the
original text instead of an empty-array literal. -/
def extract_json (text : String) : Option String :=
  match firstIdxOf text.data '\x7b' with
  | some start =>
    match lastIdxOf text.data '\x7d' with
    | some stop =>
      if start ≤ stop + 1 then some ⟨sliceInclusive text.data start stop⟩ else none
    | none => some text
  | none => some text

/-! ## Character-name derivation (commands/content.rs, lines 8-21) -/

/-- Hangul-syllable test used by `extract_character_name`:
a range check for U+AC00 through U+D7A3 in the Rust source. -/
def isHangulSyllable (c : Char) : Bool :=
  0xAC00 ≤ c.toNat && c.toNat ≤ 0xD7A3

/-- Embedding of `extract_character_name`.  Rust filters with
`c.is_alphabetic() || hangul-range`; `char::is_alphabetic` is the external
Unicode `Alphabetic` property, so it is taken as the parameter `alpha`
(every theorem below holds for an arbitrary `alpha`, and concrete
instantiations use ASCII `Char.isAlpha`, which agrees with Rust on the
concrete inputs involved). -/
def extract_character_name (alpha : Char → Bool) (keyword : String) : String :=
  let cleaned : List Char :=
    keyword.data.filter (fun c => alpha c || isHangulSyllable c)
  if cleaned.any isHangulSyllable then ⟨cleaned.take 2⟩ else ⟨cleaned.take 4⟩

/-! ## Provider selection (commands/image.rs, commands/content.rs) -/

/-- The three concrete provider services of `src/services`. -/
inductive Provider where
  | openai
  | anthropic
  | google
deriving DecidableEq, Repr

/-- Embedding of the provider dispatch in `generate_content_plan`
(commands/content.rs, lines 95-108): `match provider.as_str()` with arms
for "anthropic" and "google", everything else going to `OpenAIService`. -/
def select_text_provider (provider : String) : Provider :=
  if provider = "anthropic" then .anthropic
  else if provider = "google" then .google
  else .openai

/-- Embedding of the provider dispatch in `generate_image`
(commands/image.rs, lines 45-60): the arm `"google" | "gemini"` goes to
`GoogleService`, everything else to `OpenAIService` (DALL-E). -/
def select_image_provider (provider : String) : Provider :=
  if provider = "google" ∨ provider = "gemini" then .google else .openai

/-- Embedding of `request.llm_provider.clone().unwrap_or_else(|| "openai")`
in `generate_content_plan` (commands/content.rs, line 56). -/
def text_provider_id (provider : Option String) : String :=
  provider.getD "openai"

/-- Embedding of `provider.unwrap_or_else(|| "google")` in `generate_image`
(commands/image.rs, line 23). -/
def image_provider_id (provider : Option String) : String :=
  provider.getD "google"

/-! ## Image generation data model (models/content.rs) -/

/-- Embedding of `ImageGenerationRequest` (models/content.rs). -/
structure ImageGenerationRequest where
  content_id : String
  image_concept : String
  style_prompt : String
  style_image_path : Option String
deriving DecidableEq, Repr

/-- Embedding of `GeneratedImage` (models/content.rs). -/
structure GeneratedImage where
  id : String
  content_id : String
  url : String
  local_path : Option String
  width : Nat
  height : Nat
deriving DecidableEq, Repr

/-! ## Batch image generation (commands/image.rs, lines 82-123)

The per-request work (`generate_image`, a network call to the selected
provider) is abstracted as the parameter `gen`; the loop, the skip-on-error
policy and the all-failed check are embedded from the source. -/

/-- The accumulation loop of `generate_batch_images`: each request is run in
input order; a success is pushed onto `results`, a failure is logged and
skipped. -/
def batch_loop (gen : ImageGenerationRequest → Except String GeneratedImage) :
    List ImageGenerationRequest → List GeneratedImage → List GeneratedImage
  | [], results => results
  | r :: rest, results =>
    match gen r with
    | .ok image => batch_loop gen rest (results ++ [image])
    | .error _ => batch_loop gen rest results

/-- Embedding of `generate_batch_images`: run the loop from an empty result
list, then fail exactly when no request succeeded.  The inter-item
500 ms sleep has no effect on the returned value and is not modelled. -/
def generate_batch_images
    (gen : ImageGenerationRequest → Except String GeneratedImage)
    (requests : List ImageGenerationRequest) : Except String (List GeneratedImage) :=
  let results := batch_loop gen requests []
  if results.isEmpty then .error "모든 이미지 생성에 실패했습니다." else .ok results

/-! ## Content-plan generation (commands/content.rs, lines 43-202) -/

/-- Embedding of `ContentPlanItem` (models/content.rs). -/
structure ContentPlanItem where
  id : String
  title : String
  character_name : String
  journal_number : Nat
  content : String
  image_concept : String
  status : String
deriving DecidableEq, Repr

/-- Embedding of the private `LLMContent` deserialization target of
`parse_content_plan`. -/
structure LLMContent where
  title : String
  content : String
  image_concept : String
deriving DecidableEq, Repr

/-- Embedding of `FallbackContent` (commands/content.rs). -/
structure FallbackContent where
  title : String
  content : String
  image_concept : String
deriving DecidableEq, Repr

/-- The ten canned `(topic, copy)` pairs of `generate_fallback_content`
(commands/content.rs, lines 177-188). -/
def fallback_topics : List (String × String) :=
  [("기초 효능", "피부에 미치는 기본적인 효과를 알아봐요 ✨"),
   ("보습 메커니즘", "피부 속 수분을 어떻게 지켜줄까요? 💧"),
   ("장벽 강화", "피부 장벽을 튼튼하게 만드는 비결 🛡️"),
   ("진정 효과", "민감해진 피부를 달래주는 방법 🌿"),
   ("아기 피부", "연약한 아기 피부에도 안전해요 👶"),
   ("임산부 안전성", "임산부도 안심하고 사용할 수 있어요 🤰"),
   ("EWG 등급", "안전성 등급이 의미하는 것 📊"),
   ("적정 농도", "얼마나 들어있으면 효과적일까요? 🧪"),
   ("함께 쓰면 좋은 성분", "시너지를 내는 조합 💪"),
   ("제형별 특징", "크림, 세럼, 에센스의 차이 🧴")]

/-- Embedding of `generate_fallback_content` (commands/content.rs, lines
176-202): take the first `count` canned topics and compose each with the
keyword via the two `format!` templates. -/
def generate_fallback_content (keyword : String) (count : Nat) : List FallbackContent :=
  (fallback_topics.take count).map (fun tc =>
    ⟨keyword ++ " - " ++ tc.1,
     tc.2,
     "귀여운 캐릭터가 연구실에서 " ++ keyword ++ "을(를) 분석하며 " ++ tc.1
       ++ " 포인트를 설명하는 일러스트"⟩)

/-- Embedding of `parse_content_plan` (commands/content.rs, lines 115-157).
The serde decode of the extracted array into `Vec<LLMContent>` is external
(`serde_json::from_str`), so it is the parameter `decode`; the freshly
generated UUIDs are the parameter `fresh` (id of the i-th item).  The outer
`Option` is `none` exactly when `extract_json_array` panics. -/
def parse_content_plan (decode : String → Option (List LLMContent))
    (fresh : Nat → String)
    (response character_name keyword : String) : Option (List ContentPlanItem) :=
  match extract_json_array response with
  | none => none
  | some json_str =>
    let parsed : List LLMContent :=
      match decode json_str with
      | some l => l
      | none =>
        (generate_fallback_content keyword 10).map (fun f =>
          ⟨f.title, f.content, f.image_concept⟩)
    some (parsed.enum.map (fun ic =>
      ⟨fresh ic.1, ic.2.title, character_name, ic.1 + 1, ic.2.content,
       ic.2.image_concept, "pending"⟩))

/-- Model of Rust `str::trim`: drop leading and trailing whitespace
characters (`Char.isWhitespace` standing for the external Unicode
White_Space property). -/
def rust_trim (l : List Char) : List Char :=
  ((l.dropWhile Char.isWhitespace).reverse.dropWhile Char.isWhitespace).reverse

/-- Embedding of the validation and parsing path of `generate_content_plan`
(commands/content.rs, lines 43-113).  The provider response is the
parameter `response` (a network call in the source); prompt construction
only feeds that call and is not modelled.  Note that the clamped `count`
is used only inside the user prompt — it never reaches
`parse_content_plan`. -/
def generate_content_plan (alpha : Char → Bool)
    (decode : String → Option (List LLMContent)) (fresh : Nat → String)
    (keyword : String) (count : Nat) (api_key : Option String)
    (response : String) : Option (Except String (List ContentPlanItem)) :=
  if rust_trim keyword.data = [] then some (.error "키워드를 입력해주세요.")
  else
    match api_key with
    | none => some (.error "API 키가 설정되지 않았습니다.")
    | some _ =>
      let character_name := extract_character_name alpha keyword
      let _clamped := max (min count 20) 1
      match parse_content_plan decode fresh response character_name keyword with
      | none => none
      | some items => some (.ok items)

/-! ## Project data model (models/project.rs) -/

/-- Embedding of `ProjectIngredientAnalysis`. -/
structure ProjectIngredientAnalysis where
  ingredient_name : String
  korean_name : String
  ewg_score : Option Int
  benefits : List String
  cautions : List String
  recommended_concentration : Option String
deriving DecidableEq, Repr

/-- Embedding of `ProjectPaperResult`. -/
structure ProjectPaperResult where
  id : String
  title : String
  authors : List String
  abstract_text : String
  publication_date : String
  source : String
  citation_count : Option Int
  doi : Option String
  url : Option String
deriving DecidableEq, Repr

/-- Embedding of `ProjectSourceReference`. -/
structure ProjectSourceReference where
  id : String
  title : String
  url : String
  source_type : String
  cited_in : String
deriving DecidableEq, Repr

/-- Embedding of `ProjectResearchReport`. -/
structure ProjectResearchReport where
  ingredient_analysis : Option ProjectIngredientAnalysis
  papers : List ProjectPaperResult
  sources : List ProjectSourceReference
deriving DecidableEq, Repr

/-- Embedding of `ProjectResearchItem`. -/
structure ProjectResearchItem where
  id : String
  prompt : String
  title : String
  summary : String
  full_report : ProjectResearchReport
  created_at : String
  updated_at : String
deriving DecidableEq, Repr

/-- Embedding of `ProjectContentItem`. -/
structure ProjectContentItem where
  id : String
  title : String
  character_name : String
  journal_number : Int
  content : String
  image_concept : String
  status : String
  generated_image_id : Option String
deriving DecidableEq, Repr

/-- Embedding of `ProjectContentGroup`. -/
structure ProjectContentGroup where
  id : String
  name : String
  research_item_ids : List String
  contents : List ProjectContentItem
  created_at : String
deriving DecidableEq, Repr

/-- Embedding of `ProjectGeneratedImageRecord`. -/
structure ProjectGeneratedImageRecord where
  id : String
  content_id : String
  content_group_id : String
  image_url : String
  local_path : String
  created_at : String
deriving DecidableEq, Repr

/-- Embedding of `Project` (models/project.rs), the root aggregate. -/
structure Project where
  id : String
  name : String
  created_at : String
  updated_at : String
  research_items : List ProjectResearchItem
  content_groups : List ProjectContentGroup
  generated_images : List ProjectGeneratedImageRecord
deriving DecidableEq, Repr

/-- Embedding of `ProjectMeta`, the denormalized index entry. -/
structure ProjectMeta where
  id : String
  name : String
  created_at : String
  updated_at : String
  research_count : Nat
  content_count : Nat
  image_count : Nat
deriving DecidableEq, Repr

/-! ## File-system model (commands/project.rs)

The filesystem is the external collaborator of the project store.  Paths
are component lists relative to the projects base directory; files hold
one of the storable values directly, standing for its serde JSON
serialization (serde round-tripping is an external-library guarantee, so a
written value reads back as itself; a file holding a value of a different
shape models a JSON document that fails to decode).  Writes are modelled
as prepends and reads find the most recent write; in this model a read of
an existing file never incurs an I/O error, so `unwrap_or`-style recovery
branches of the source collapse to their success arm. -/

/-- A path relative to the projects base directory. -/
abbrev FilePath := List String

/-- The value stored in one file. -/
inductive FileValue where
  | projectFile : Project → FileValue
  | metasFile : List ProjectMeta → FileValue
  | researchFile : ProjectResearchItem → FileValue
  | groupFile : ProjectContentGroup → FileValue
deriving DecidableEq, Repr

/-- The file-system state: latest writes first. -/
abbrev FS := List (FilePath × FileValue)

/-- Model of `fs::write` (create-or-truncate). -/
def fsWrite (fs : FS) (p : FilePath) (v : FileValue) : FS :=
  (p, v) :: fs

/-- Model of reading a file: the most recent write to `p`, if the file
exists. -/
def fsRead (fs : FS) (p : FilePath) : Option FileValue :=
  (fs.find? (fun e => decide (e.1 = p))).map (·.2)

/-- Path of the per-project aggregate snapshot `<id>/project.json`. -/
def projectFilePath (project_id : String) : FilePath :=
  [project_id, "project.json"]

/-- Path of a per-item research file `<id>/research/<rid>.json`. -/
def researchFilePath (project_id rid : String) : FilePath :=
  [project_id, "research", rid ++ ".json"]

/-- Path of a per-group content file `<id>/content/<gid>.json`. -/
def contentGroupFilePath (project_id gid : String) : FilePath :=
  [project_id, "content", gid ++ ".json"]

/-- Path of the shared index file `projects_index.json`. -/
def indexFilePath : FilePath :=
  ["projects_index.json"]

/-- Decoding a file as `Vec<ProjectMeta>`; any other stored shape is a
decode failure. -/
def decodeMetas : FileValue → Option (List ProjectMeta)
  | .metasFile l => some l
  | _ => none

/-- Decoding a file as a `Project` aggregate. -/
def decodeProject : FileValue → Option Project
  | .projectFile p => some p
  | _ => none

/-! ## Project store operations (commands/project.rs) -/

/-- The `ProjectMeta` computed inside `update_projects_index`
(commands/project.rs, lines 263-271). -/
def project_meta_of (project : Project) : ProjectMeta :=
  ⟨project.id, project.name, project.created_at, project.updated_at,
   project.research_items.length,
   (project.content_groups.map (fun g => g.contents.length)).sum,
   project.generated_images.length⟩

/-- Embedding of `update_projects_index` (commands/project.rs, lines
243-280): read the index (absent file or decode failure count as an empty
index), drop every entry carrying the id of the project, append a fresh meta unless
deleting, rewrite the whole file. -/
def update_projects_index (fs : FS) (project : Project) (del : Bool) : FS :=
  let projects : List ProjectMeta :=
    match fsRead fs indexFilePath with
    | some v => (decodeMetas v).getD []
    | none => []
  let projects := projects.filter (fun p => decide (p.id ≠ project.id))
  let projects :=
    if del then projects else projects ++ [project_meta_of project]
  fsWrite fs indexFilePath (.metasFile projects)

/-- Embedding of `create_project` (commands/project.rs, lines 39-70).  The
id is `proj_` plus twelve characters of a fresh UUID; the UUID and the
clock are external, so the token and `now` are parameters.  Directory
creation has no observable effect in this model. -/
def create_project (name token now : String) (fs : FS) : Project × FS :=
  let project : Project := ⟨"proj_" ++ token, name, now, now, [], [], []⟩
  let fs := fsWrite fs (projectFilePath project.id) (.projectFile project)
  let fs := update_projects_index fs project false
  (project, fs)

/-- Embedding of `save_project` (commands/project.rs, lines 94-139): write
the aggregate snapshot, then one file per research item, then one file per
content group, then update the index.  The project value is written
verbatim — no field, in particular no timestamp, is modified. -/
def save_project (project : Project) (fs : FS) : FS :=
  let fs := fsWrite fs (projectFilePath project.id) (.projectFile project)
  let fs := project.research_items.foldl
    (fun acc r => fsWrite acc (researchFilePath project.id r.id) (.researchFile r)) fs
  let fs := project.content_groups.foldl
    (fun acc g => fsWrite acc (contentGroupFilePath project.id g.id) (.groupFile g)) fs
  update_projects_index fs project false

/-- Embedding of `load_project` (commands/project.rs, lines 72-92): read
only the aggregate snapshot; per-item side files are never consulted. -/
def load_project (project_id : String) (fs : FS) : Except String Project :=
  match fsRead fs (projectFilePath project_id) with
  | none => .error "프로젝트를 찾을 수 없습니다"
  | some v =>
    match decodeProject v with
    | some p => .ok p
    | none => .error "프로젝트 파싱 실패"

/-- Model of the lexicographic comparison underlying Rust `String::cmp`
(byte order, which agrees with code-point order under UTF-8). -/
def rust_chars_le : List Char → List Char → Bool
  | [], _ => true
  | _ :: _, [] => false
  | x :: xs, y :: ys =>
    if x = y then rust_chars_le xs ys else decide (x.toNat < y.toNat)

/-- Lexicographic less-or-equal on strings, as used by the
`sort_by(|a, b| b.updated_at.cmp(&a.updated_at))` in `list_projects`. -/
def rust_str_le (a b : String) : Bool :=
  rust_chars_le a.data b.data

/-- Embedding of `list_projects` (commands/project.rs, lines 173-192): no
index file means an empty list; otherwise decode (failure gives an empty
list) and stably sort by `updated_at` descending. -/
def list_projects (fs : FS) : List ProjectMeta :=
  match fsRead fs indexFilePath with
  | none => []
  | some v =>
    ((decodeMetas v).getD []).mergeSort (fun a b => rust_str_le b.updated_at a.updated_at)

/-! ## Helper lemmas -/

theorem firstIdxOf_eq_none_iff (l : List Char) (c : Char) :
    firstIdxOf l c = none ↔ c ∉ l := by
  induction l with
  | nil => simp [firstIdxOf]
  | cons x xs ih =>
    by_cases hx : x = c
    · subst hx
      simp [firstIdxOf]
    · rw [firstIdxOf, if_neg hx]
      simp only [Option.map_eq_none', ih, List.mem_cons, not_or]
      exact ⟨fun h => ⟨fun hcx => hx hcx.symm, h⟩, fun h => h.2⟩

theorem lastIdxOf_eq_none_iff (l : List Char) (c : Char) :
    lastIdxOf l c = none ↔ c ∉ l := by
  induction l with
  | nil => simp [lastIdxOf]
  | cons x xs ih =>
    rw [lastIdxOf]
    cases h : lastIdxOf xs c with
    | some k =>
      have : c ∈ xs := by
        by_contra hc
        rw [ih.mpr hc] at h
        exact Option.noConfusion h
      simp [List.mem_cons, this]
    | none =>
      have : c ∉ xs := ih.mp h
      by_cases hx : x = c
      · subst hx
        simp
      · rw [if_neg hx]
        constructor
        · intro _ hmem
          rcases List.mem_cons.mp hmem with hcx | hcs
          · exact hx hcx.symm
          · exact this hcs
        · intro _
          rfl

theorem any_filter_hangul (alpha : Char → Bool) (l : List Char) :
    (l.filter (fun c => alpha c || isHangulSyllable c)).any isHangulSyllable
      = l.any isHangulSyllable := by
  induction l with
  | nil => rfl
  | cons x xs ih =>
    cases hh : isHangulSyllable x <;> cases ha : alpha x <;>
      simp [List.filter_cons, List.any_cons, hh, ha, ih]

/-- C5: the claim states that for a keyword containing a Hangul syllable the
derived name length is `min 2 (number of Hangul syllables in the cleaned
keyword)`; in fact the code takes the first two code points of the whole
cleaned keyword, Hangul or not.  At the keyword `"a가"` the cleaned keyword
is `"a가"`, the name is `"a가"` of length `2`, but it contains only one
Hangul syllable, so the claimed length would be `min 2 1 = 1`. -/
theorem extract_character_name_cex :
    "a가".data.any isHangulSyllable = true
    ∧ (extract_character_name Char.isAlpha "a가").length = 2
    ∧ (("a가".data.filter (fun c => Char.isAlpha c || isHangulSyllable c)).filter
        isHangulSyllable).length = 1
    ∧ (2 : Nat) ≠ min 2 1 := by
  decide

/-- C5 (amended): for every Unicode-alphabetic predicate `alpha` and every
keyword, if the keyword contains a Hangul syllable the derived name length
is `min 2 (length of the cleaned keyword)` — counting every cleaned code
point, not only the Hangul ones; with no Hangul syllable present (in
particular for all-Latin keywords, where the cleaned keyword consists
exactly of its letters) the length is `min 4 (length of the cleaned
keyword)`. -/
theorem extract_character_name_length (alpha : Char → Bool) (keyword : String) :
    (keyword.data.any isHangulSyllable = true →
      (extract_character_name alpha keyword).length
        = min 2 (keyword.data.filter (fun c => alpha c || isHangulSyllable c)).length)
    ∧ (keyword.data.any isHangulSyllable = false →
      (extract_character_name alpha keyword).length
        = min 4 (keyword.data.filter (fun c => alpha c || isHangulSyllable c)).length) := by
  constructor <;> intro h <;>
  · unfold extract_character_name
    simp only [any_filter_hangul, h, Bool.false_eq_true, if_true, if_false,
      String.length_mk, List.length_take]

/-- Witness for C5 at the Hangul keyword `"수분크림 추천!"` (cleaned length 6,
name length 2) and the Latin keyword `"Ceramide 100%"` (cleaned length 8,
name length 4). -/
theorem extract_character_name_length_witness :
    (extract_character_name Char.isAlpha "수분크림 추천!").length
      = min 2 ("수분크림 추천!".data.filter
          (fun c => Char.isAlpha c || isHangulSyllable c)).length
    ∧ (extract_character_name Char.isAlpha "Ceramide 100%").length
      = min 4 ("Ceramide 100%".data.filter
          (fun c => Char.isAlpha c || isHangulSyllable c)).length :=
  ⟨(extract_character_name_length Char.isAlpha "수분크림 추천!").1 (by decide),
   (extract_character_name_length Char.isAlpha "Ceramide 100%").2 (by decide)⟩

/-- C6: the claim quantifies over every input text, but on `"]ab["` — where
the first `[` (index 3) lies after the last `]` (index 0) — the Rust slice
`text[3..=0]` panics, so array extraction returns no string at all. -/
theorem extract_json_array_cex :
    '[' ∈ "]ab[".data ∧ ']' ∈ "]ab[".data ∧ extract_json_array "]ab[" = none := by
  decide

/-- C6 (amended): whenever the text lacks `[` or lacks `]`, array extraction
returns the literal `"[]"`; whenever the first `[` lies at or before the
last `]`, it returns the inclusive substring between them; when the first
`[` lies exactly one position past the last `]`, the Rust slice is the
valid empty range and the empty string is returned.  Only texts whose
first `[` lies more than one position past the last `]` are excluded: on
exactly those the slice panics (see the C10 theorems). -/
theorem extract_json_array_spec (t : String) :
    (('[' ∉ t.data ∨ ']' ∉ t.data) → extract_json_array t = some "[]")
    ∧ (∀ i j, firstIdxOf t.data '[' = some i → lastIdxOf t.data ']' = some j →
        i ≤ j → extract_json_array t = some ⟨sliceInclusive t.data i j⟩)
    ∧ (∀ i j, firstIdxOf t.data '[' = some i → lastIdxOf t.data ']' = some j →
        i = j + 1 → extract_json_array t = some "") := by
  refine ⟨?_, ?_, ?_⟩
  · rintro (h | h)
    · rw [extract_json_array, (firstIdxOf_eq_none_iff _ _).mpr h]
    · rw [extract_json_array]
      cases hf : firstIdxOf t.data '[' with
      | none => rfl
      | some i => rw [(lastIdxOf_eq_none_iff _ _).mpr h]
  · intro i j h1 h2 hij
    rw [extract_json_array, h1, h2]
    dsimp only
    rw [if_pos (by omega)]
  · intro i j h1 h2 hij
    subst hij
    rw [extract_json_array, h1, h2]
    dsimp only
    rw [if_pos (Nat.le_refl _)]
    simp [sliceInclusive, Nat.sub_self]

/-- Witness for C6 at the two example texts of the specification and at the
boundary text whose brackets are adjacent in reverse order. -/
theorem extract_json_array_spec_witness :
    extract_json_array "prefix [1,2,3] suffix [4,5]" = some "[1,2,3] suffix [4,5]"
    ∧ extract_json_array "no brackets here" = some "[]"
    ∧ extract_json_array "][" = some "" := by
  refine ⟨?_, ?_, ?_⟩
  · have h := (extract_json_array_spec "prefix [1,2,3] suffix [4,5]").2.1 7 26
      (by decide) (by decide) (by decide)
    exact h
  · exact (extract_json_array_spec "no brackets here").1 (Or.inl (by decide))
  · exact (extract_json_array_spec "][").2.2 1 0 (by decide) (by decide) rfl

/-- C7: the claim states that whenever the text contains both braces, object
extraction returns the inclusive substring from the first opening brace to
the last closing brace; on a text of the shape closing-brace, letter,
opening-brace the first opening brace (index 2) lies after the last closing
brace (index 0), the Rust slice `text[2..=0]` panics, and no string is
returned. -/
theorem extract_json_cex :
    '\x7b' ∈ "\x7da\x7b".data ∧ '\x7d' ∈ "\x7da\x7b".data
    ∧ extract_json "\x7da\x7b" = none := by
  decide

/-- C7 (amended): on a text without an opening brace, object extraction
returns the original text unchanged (the intentional asymmetry with array
extraction); whenever the first opening brace lies at or before the last
closing brace it returns the inclusive substring between them; when the
first opening brace lies exactly one position past the last closing brace,
the Rust slice is the valid empty range and the empty string is returned.
Only texts whose first opening brace lies more than one position past the
last closing brace are excluded: on exactly those the slice panics (see
the C10 theorems). -/
theorem extract_json_spec (t : String) :
    ('\x7b' ∉ t.data → extract_json t = some t)
    ∧ (∀ i j, firstIdxOf t.data '\x7b' = some i → lastIdxOf t.data '\x7d' = some j →
        i ≤ j → extract_json t = some ⟨sliceInclusive t.data i j⟩)
    ∧ (∀ i j, firstIdxOf t.data '\x7b' = some i → lastIdxOf t.data '\x7d' = some j →
        i = j + 1 → extract_json t = some "") := by
  refine ⟨?_, ?_, ?_⟩
  · intro h
    rw [extract_json, (firstIdxOf_eq_none_iff _ _).mpr h]
  · intro i j h1 h2 hij
    rw [extract_json, h1, h2]
    dsimp only
    rw [if_pos (by omega)]
  · intro i j h1 h2 hij
    subst hij
    rw [extract_json, h1, h2]
    dsimp only
    rw [if_pos (Nat.le_refl _)]
    simp [sliceInclusive, Nat.sub_self]

/-- Witness for C7 at the example text `"no braces"`, at a text with an
embedded object, and at the boundary text whose braces are adjacent in
reverse order. -/
theorem extract_json_spec_witness :
    extract_json "no braces" = some "no braces"
    ∧ extract_json "ab \x7bc\x7d" = some "\x7bc\x7d"
    ∧ extract_json "\x7d\x7b" = some "" := by
  refine ⟨?_, ?_, ?_⟩
  · exact (extract_json_spec "no braces").1 (by decide)
  · have h := (extract_json_spec "ab \x7bc\x7d").2.1 3 5 (by decide) (by decide) (by decide)
    exact h
  · exact (extract_json_spec "\x7d\x7b").2.2 1 0 (by decide) (by decide) rfl

/-- C10: the claim asserts the extraction helpers never panic, naming the
very inputs on which they do: when the last closing delimiter precedes the
first opening delimiter by more than one position, the Rust slice
`text[start..=end]` has `start > end + 1` and panics. -/
theorem extract_panic_cex :
    extract_json_array "]xy[" = none ∧ extract_json "\x7dxy\x7b" = none := by
  decide

/-- C10 (amended): each extraction helper returns a string exactly when it
is not the case that both delimiters occur with the first opening delimiter
more than one position past the last closing delimiter; on that excluded
region the slice panics. -/
theorem extract_panic_characterization (t : String) :
    (extract_json_array t = none ↔
      ∃ i j, firstIdxOf t.data '[' = some i ∧ lastIdxOf t.data ']' = some j ∧ j + 1 < i)
    ∧ (extract_json t = none ↔
      ∃ i j, firstIdxOf t.data '\x7b' = some i ∧ lastIdxOf t.data '\x7d' = some j
        ∧ j + 1 < i) := by
  constructor
  · rw [extract_json_array]
    cases hf : firstIdxOf t.data '[' with
    | none => simp
    | some i =>
      cases hl : lastIdxOf t.data ']' with
      | none => simp
      | some j =>
        dsimp only
        by_cases hij : i ≤ j + 1
        · rw [if_pos hij]
          simp
          omega
        · rw [if_neg hij]
          exact ⟨fun _ => ⟨i, j, rfl, rfl, by omega⟩, fun _ => rfl⟩
  · rw [extract_json]
    cases hf : firstIdxOf t.data '\x7b' with
    | none => simp
    | some i =>
      cases hl : lastIdxOf t.data '\x7d' with
      | none => simp
      | some j =>
        dsimp only
        by_cases hij : i ≤ j + 1
        · rw [if_pos hij]
          simp
          omega
        · rw [if_neg hij]
          exact ⟨fun _ => ⟨i, j, rfl, rfl, by omega⟩, fun _ => rfl⟩

/-- C8: the claim routes an unrecognized provider identifier for image
generation to the Google-class provider; in fact the catch-all arm of
`generate_image` is the OpenAI (DALL-E) service, so the unrecognized
identifier `"stability"` routes to OpenAI.  Only a missing identifier
defaults to `"google"`. -/
theorem provider_fallback_cex :
    "stability" ≠ "openai" ∧ "stability" ≠ "anthropic" ∧ "stability" ≠ "google"
    ∧ "stability" ≠ "gemini"
    ∧ select_image_provider "stability" = Provider.openai
    ∧ Provider.openai ≠ Provider.google := by
  decide

/-- C8 (amended): an unrecognized provider identifier routes text
generation to the OpenAI-class provider and image generation to the
OpenAI-class provider as well; the Google-class image default applies only
to an absent identifier, which is replaced by the recognized string
`"google"` (and an absent text identifier by `"openai"`). -/
theorem provider_fallback_spec (s : String) :
    s ≠ "anthropic" → s ≠ "google" → s ≠ "gemini" →
    select_text_provider s = Provider.openai
    ∧ select_image_provider s = Provider.openai
    ∧ select_image_provider (image_provider_id none) = Provider.google
    ∧ select_text_provider (text_provider_id none) = Provider.openai := by
  intro h1 h2 h3
  refine ⟨?_, ?_, by decide, by decide⟩
  · rw [select_text_provider, if_neg h1, if_neg h2]
  · rw [select_image_provider, if_neg ?_]
    rintro (hg | hg)
    · exact h2 hg
    · exact h3 hg

/-- Witness for C8 at the unrecognized identifier `"mistral"`. -/
theorem provider_fallback_spec_witness :
    select_text_provider "mistral" = Provider.openai
    ∧ select_image_provider "mistral" = Provider.openai
    ∧ select_image_provider (image_provider_id none) = Provider.google
    ∧ select_text_provider (text_provider_id none) = Provider.openai :=
  provider_fallback_spec "mistral" (by decide) (by decide) (by decide)

/-! ## Batch image generation lemmas -/

theorem batch_loop_eq (gen : ImageGenerationRequest → Except String GeneratedImage)
    (reqs : List ImageGenerationRequest) (acc : List GeneratedImage) :
    batch_loop gen reqs acc = acc ++ reqs.filterMap (fun r => (gen r).toOption) := by
  induction reqs generalizing acc with
  | nil => simp [batch_loop]
  | cons r rest ih =>
    cases hg : gen r with
    | ok image => simp [batch_loop, hg, ih, Except.toOption]
    | error e => simp [batch_loop, hg, ih, Except.toOption]

theorem length_filterMap_toOption
    (gen : ImageGenerationRequest → Except String GeneratedImage)
    (reqs : List ImageGenerationRequest) :
    (reqs.filterMap (fun r => (gen r).toOption)).length
      = reqs.countP (fun r => ((gen r).toOption).isSome) := by
  induction reqs with
  | nil => rfl
  | cons r rest ih =>
    cases hg : (gen r).toOption <;>
      simp [List.filterMap_cons, List.countP_cons, hg, ih]

theorem filterMap_toOption_of_all_ok
    (gen : ImageGenerationRequest → Except String GeneratedImage) :
    ∀ (reqs : List ImageGenerationRequest) (imgs : List GeneratedImage),
      reqs.map gen = imgs.map Except.ok →
      reqs.filterMap (fun r => (gen r).toOption) = imgs := by
  intro reqs
  induction reqs with
  | nil =>
    intro imgs h
    cases imgs with
    | nil => rfl
    | cons i irest => exact absurd h.symm (by simp)
  | cons r rest ih =>
    intro imgs h
    cases imgs with
    | nil => exact absurd h (by simp)
    | cons i irest =>
      rw [List.map_cons, List.map_cons] at h
      have hr : gen r = Except.ok i := (List.cons.injEq _ _ _ _ ▸ h).1
      have hrest := (List.cons.injEq _ _ _ _ ▸ h).2
      rw [List.filterMap_cons, hr]
      show i :: rest.filterMap (fun r => (gen r).toOption) = i :: irest
      rw [ih irest hrest]

/-- C2: with the per-request outcome abstracted as `gen` and `M` the number
of requests that succeed, `generate_batch_images` returns the error
message for `M = 0`, and otherwise returns exactly the `M` successful
results; when every request succeeds (and the batch is non-empty, so the
`M = 0` error clause does not apply) the result is the full list of images
in input-list order — the i-th image comes from the i-th request. -/
theorem generate_batch_images_spec
    (gen : ImageGenerationRequest → Except String GeneratedImage)
    (reqs : List ImageGenerationRequest) :
    ((reqs.filterMap (fun r => (gen r).toOption)).length
        = reqs.countP (fun r => ((gen r).toOption).isSome))
    ∧ (reqs.countP (fun r => ((gen r).toOption).isSome) = 0 →
        generate_batch_images gen reqs = .error "모든 이미지 생성에 실패했습니다.")
    ∧ (0 < reqs.countP (fun r => ((gen r).toOption).isSome) →
        generate_batch_images gen reqs
          = .ok (reqs.filterMap (fun r => (gen r).toOption)))
    ∧ (∀ imgs : List GeneratedImage, reqs.map gen = imgs.map Except.ok → imgs ≠ [] →
        generate_batch_images gen reqs = .ok imgs) := by
  refine ⟨length_filterMap_toOption gen reqs, ?_, ?_, ?_⟩
  · intro h0
    have hnil : reqs.filterMap (fun r => (gen r).toOption) = [] := by
      rw [← List.length_eq_zero]
      rw [length_filterMap_toOption gen reqs, h0]
    rw [generate_batch_images, batch_loop_eq, List.nil_append, hnil]
    rfl
  · intro hpos
    have hne : reqs.filterMap (fun r => (gen r).toOption) ≠ [] := by
      intro hnil
      rw [← length_filterMap_toOption gen reqs, hnil] at hpos
      exact absurd hpos (by simp)
    rw [generate_batch_images, batch_loop_eq, List.nil_append]
    simp [List.isEmpty_iff, hne]
  · intro imgs hall hne
    have hfm := filterMap_toOption_of_all_ok gen reqs imgs hall
    rw [generate_batch_images, batch_loop_eq, List.nil_append, hfm]
    simp [List.isEmpty_iff, hne]

/-- Witness for C2: a two-request batch with one success returns exactly
that success; a one-request batch with no success fails; a two-request
batch with two successes returns both in input order. -/
theorem generate_batch_images_spec_witness :
    generate_batch_images
        (fun r => if r.content_id = "one" then .ok ⟨"i1", "one", "u1", none, 1024, 1024⟩
          else .error "boom")
        [⟨"one", "c", "", none⟩, ⟨"two", "c", "", none⟩]
      = .ok [⟨"i1", "one", "u1", none, 1024, 1024⟩]
    ∧ generate_batch_images (fun _ => .error "boom") [⟨"one", "c", "", none⟩]
      = .error "모든 이미지 생성에 실패했습니다."
    ∧ generate_batch_images (fun r => .ok ⟨"i", r.content_id, "u", none, 1024, 1024⟩)
        [⟨"one", "c", "", none⟩, ⟨"two", "c", "", none⟩]
      = .ok [⟨"i", "one", "u", none, 1024, 1024⟩, ⟨"i", "two", "u", none, 1024, 1024⟩] := by
  refine ⟨?_, ?_, ?_⟩
  · have h := (generate_batch_images_spec
      (fun r => if r.content_id = "one" then .ok ⟨"i1", "one", "u1", none, 1024, 1024⟩
        else .error "boom")
      [⟨"one", "c", "", none⟩, ⟨"two", "c", "", none⟩]).2.2.1 (by decide)
    exact h
  · exact (generate_batch_images_spec (fun _ => .error "boom")
      [⟨"one", "c", "", none⟩]).2.1 (by decide)
  · exact (generate_batch_images_spec
      (fun r => .ok ⟨"i", r.content_id, "u", none, 1024, 1024⟩)
      [⟨"one", "c", "", none⟩, ⟨"two", "c", "", none⟩]).2.2.2
      [⟨"i", "one", "u", none, 1024, 1024⟩, ⟨"i", "two", "u", none, 1024, 1024⟩]
      (by rfl) (by decide)

/-- C4: when the extracted array fails to decode, content-plan generation
returns `ok` (it does not raise) with exactly the 10 canned fallback items
composed with the keyword — independently of the requested `count`, which
only ever reaches the user prompt, so a requested count of 15 still yields
exactly 10 items — and the i-th item carries `journal_number = i + 1`
(strictly increasing from 1), initial status `"pending"`, and the shared
derived character name. -/
theorem content_plan_fallback (alpha : Char → Bool)
    (decode : String → Option (List LLMContent)) (fresh : Nat → String)
    (keyword : String) (count : Nat) (key : String) (response js : String) :
    rust_trim keyword.data ≠ [] →
    extract_json_array response = some js →
    decode js = none →
    ∃ items : List ContentPlanItem,
      generate_content_plan alpha decode fresh keyword count (some key) response
        = some (.ok items)
      ∧ items.length = 10
      ∧ (∀ i (h : i < items.length), (items.get ⟨i, h⟩).journal_number = i + 1)
      ∧ (∀ it ∈ items, it.status = "pending"
          ∧ it.character_name = extract_character_name alpha keyword) := by
  intro hk he hd
  have hparse : parse_content_plan decode fresh response
      (extract_character_name alpha keyword) keyword
      = some ((((generate_fallback_content keyword 10).map (fun f =>
          (⟨f.title, f.content, f.image_concept⟩ : LLMContent))).enum).map (fun ic =>
            (⟨fresh ic.1, ic.2.title, extract_character_name alpha keyword, ic.1 + 1,
              ic.2.content, ic.2.image_concept, "pending"⟩ : ContentPlanItem))) := by
    simp only [parse_content_plan, he, hd]
  refine ⟨(((generate_fallback_content keyword 10).map (fun f =>
      (⟨f.title, f.content, f.image_concept⟩ : LLMContent))).enum).map (fun ic =>
        (⟨fresh ic.1, ic.2.title, extract_character_name alpha keyword, ic.1 + 1,
          ic.2.content, ic.2.image_concept, "pending"⟩ : ContentPlanItem)),
      ?_, ?_, ?_, ?_⟩
  · rw [generate_content_plan, if_neg hk]
    dsimp only
    rw [hparse]
  · have h10 : (generate_fallback_content keyword 10).length = 10 := by
      rw [generate_fallback_content, List.length_map]
      rfl
    simp [List.length_map, List.enum_length, h10]
  · intro i h
    simp [List.get_eq_getElem, List.getElem_map, List.getElem_enum]
  · intro it hit
    rcases List.mem_map.mp hit with ⟨ic, _, hic⟩
    exact ⟨by rw [← hic], by rw [← hic]⟩

/-- Witness for C4: a requested count of 15 with an undecodable response
yields exactly 10 pending items with journal numbers 1 through 10. -/
theorem content_plan_fallback_witness :
    ∃ items : List ContentPlanItem,
      generate_content_plan Char.isAlpha (fun _ => none) (fun _ => "uuid")
          "세라마이드" 15 (some "sk-test") "죄송합니다. JSON 응답을 만들 수 없습니다."
        = some (.ok items)
      ∧ items.length = 10
      ∧ (∀ i (h : i < items.length), (items.get ⟨i, h⟩).journal_number = i + 1)
      ∧ (∀ it ∈ items, it.status = "pending"
          ∧ it.character_name = extract_character_name Char.isAlpha "세라마이드") :=
  content_plan_fallback Char.isAlpha (fun _ => none) (fun _ => "uuid")
    "세라마이드" 15 "sk-test" "죄송합니다. JSON 응답을 만들 수 없습니다." "[]"
    (by decide) (by rfl) (by rfl)

/-! ## File-system lemmas -/

theorem fsRead_fsWrite_self (fs : FS) (p : FilePath) (v : FileValue) :
    fsRead (fsWrite fs p v) p = some v := by
  simp [fsRead, fsWrite, List.find?_cons_of_pos]

theorem fsRead_fsWrite_ne (fs : FS) (p q : FilePath) (v : FileValue) (h : q ≠ p) :
    fsRead (fsWrite fs q v) p = fsRead fs p := by
  simp [fsRead, fsWrite, List.find?_cons_of_neg, h]

theorem fsRead_foldl_ne {α : Type} (f : α → FilePath) (g : α → FileValue)
    (items : List α) (fs : FS) (target : FilePath)
    (h : ∀ a ∈ items, f a ≠ target) :
    fsRead (items.foldl (fun acc a => fsWrite acc (f a) (g a)) fs) target
      = fsRead fs target := by
  induction items generalizing fs with
  | nil => rfl
  | cons a rest ih =>
    rw [List.foldl_cons, ih _ (fun b hb => h b (List.mem_cons_of_mem _ hb)),
      fsRead_fsWrite_ne _ _ _ _ (h a (List.mem_cons_self _ _))]

theorem researchFilePath_ne_projectFilePath (a b c : String) :
    researchFilePath a b ≠ projectFilePath c := by
  simp [researchFilePath, projectFilePath]

theorem contentGroupFilePath_ne_projectFilePath (a b c : String) :
    contentGroupFilePath a b ≠ projectFilePath c := by
  simp [contentGroupFilePath, projectFilePath]

theorem indexFilePath_ne_projectFilePath (c : String) :
    indexFilePath ≠ projectFilePath c := by
  simp [indexFilePath, projectFilePath]

theorem researchFilePath_ne_indexFilePath (a b : String) :
    researchFilePath a b ≠ indexFilePath := by
  simp [researchFilePath, indexFilePath]

theorem contentGroupFilePath_ne_indexFilePath (a b : String) :
    contentGroupFilePath a b ≠ indexFilePath := by
  simp [contentGroupFilePath, indexFilePath]

theorem projectFilePath_ne_indexFilePath (c : String) :
    projectFilePath c ≠ indexFilePath := by
  simp [projectFilePath, indexFilePath]

/-- Reading the aggregate snapshot after a save gives back exactly the
saved project value: the index update and the per-item side files live at
other paths. -/
theorem fsRead_save_project (pr : Project) (fs : FS) :
    fsRead (save_project pr fs) (projectFilePath pr.id) = some (.projectFile pr) := by
  unfold save_project update_projects_index
  rw [fsRead_fsWrite_ne _ _ _ _ (indexFilePath_ne_projectFilePath _),
    fsRead_foldl_ne (fun g => contentGroupFilePath pr.id g.id) (fun g => .groupFile g)
      _ _ _ (fun g _ => contentGroupFilePath_ne_projectFilePath _ _ _),
    fsRead_foldl_ne (fun r => researchFilePath pr.id r.id) (fun r => .researchFile r)
      _ _ _ (fun r _ => researchFilePath_ne_projectFilePath _ _ _),
    fsRead_fsWrite_self]

/-- C1: saving any project and loading it back by its id succeeds and
returns the aggregate field-for-field; the per-item side files written by
the save are never consulted by the load. -/
theorem save_load_roundtrip (p : Project) (fs : FS) :
    load_project p.id (save_project p fs) = .ok p := by
  rw [load_project, fsRead_save_project]
  rfl

/-- C3: the claim says every save refreshes `updatedAt`; in fact
`save_project` writes the project value verbatim.  Here a project stored
with `updated_at = "2024-06-02"` is saved again with
`updated_at = "2024-06-01"`, and the stored value after the save is the
older `"2024-06-01"` — not newer than or equal to the value before the
save. -/
theorem save_updated_at_cex :
    load_project "p1"
        (save_project (⟨"p1", "n", "2024-01-01", "2024-06-01", [], [], []⟩ : Project)
          (save_project (⟨"p1", "n", "2024-01-01", "2024-06-02", [], [], []⟩ : Project) []))
      = .ok ⟨"p1", "n", "2024-01-01", "2024-06-01", [], [], []⟩
    ∧ rust_str_le "2024-06-02" "2024-06-01" = false := by
  exact ⟨rfl, by decide⟩

/-- C3 (amended): `save_project` persists the `updated_at` of the project (and
`created_at`) exactly as passed in, without refreshing it; consequently the
stored `updatedAt` after a save equals that of the input, and can move backwards
in time. -/
theorem save_project_updated_at_verbatim (p : Project) (fs : FS) :
    ∃ stored : Project,
      fsRead (save_project p fs) (projectFilePath p.id) = some (.projectFile stored)
      ∧ stored.updated_at = p.updated_at
      ∧ stored.created_at = p.created_at :=
  ⟨p, fsRead_save_project p fs, rfl, rfl⟩

/-! ## Index lemmas for C9 -/

theorem filter_eq_of_filter_ne (l : List ProjectMeta) (i : String) :
    (l.filter (fun m => decide (m.id ≠ i))).filter (fun m => decide (m.id = i)) = [] := by
  induction l with
  | nil => rfl
  | cons m rest ih =>
    rw [List.filter_cons]
    by_cases hm : m.id = i
    · rw [if_neg (by simp [hm])]
      exact ih
    · rw [if_pos (by simp [hm]), List.filter_cons, if_neg (by simp [hm])]
      exact ih

/-- After any save, the listed index entries carrying the id of the saved project
are exactly the one freshly computed meta: the index update drops every
stale entry for that id before appending. -/
theorem list_save_filter (pr : Project) (fs : FS) :
    (list_projects (save_project pr fs)).filter (fun m => decide (m.id = pr.id))
      = [project_meta_of pr] := by
  simp only [save_project, update_projects_index]
  rw [fsRead_foldl_ne (fun g => contentGroupFilePath pr.id g.id) (fun g => .groupFile g)
      _ _ _ (fun g _ => contentGroupFilePath_ne_indexFilePath _ _),
    fsRead_foldl_ne (fun r => researchFilePath pr.id r.id) (fun r => .researchFile r)
      _ _ _ (fun r _ => researchFilePath_ne_indexFilePath _ _),
    fsRead_fsWrite_ne _ _ _ _ (projectFilePath_ne_indexFilePath _)]
  simp only [list_projects]
  rw [fsRead_fsWrite_self]
  dsimp only [decodeMetas, Option.getD_some]
  simp only [Bool.false_eq_true, if_false]
  apply List.perm_singleton.mp
  refine ((List.mergeSort_perm _ _).filter _).trans ?_
  rw [List.filter_append, filter_eq_of_filter_ne, List.nil_append, List.filter_cons]
  rw [if_pos (by simp [project_meta_of])]
  rw [List.filter_nil]

/-- C9: after `create_project` followed by `save_project` of the created
project, the listing contains exactly one `ProjectMeta` carrying the project
id, and its `content_count` is the sum of `contents.length` over the
content groups of the project. -/
theorem create_save_unique_meta (name token now : String) (fs : FS) :
    (list_projects (save_project (create_project name token now fs).1
        (create_project name token now fs).2)).filter
      (fun m => decide (m.id = (create_project name token now fs).1.id))
      = [project_meta_of (create_project name token now fs).1]
    ∧ (project_meta_of (create_project name token now fs).1).content_count
      = ((create_project name token now fs).1.content_groups.map
          (fun g => g.contents.length)).sum :=
  ⟨list_save_filter _ _, rfl⟩

end MomsInsta
